import Mathlib

/-
  Verification development for the web-terminal (SSH bridge) subsystem of
  falkyre/nhl-setup, src/web/config_server.py, lines 1358-1535.

  The Python code keeps one global dict `ssh_sessions` mapping a token
  (uuid string) to a record with keys client (paramiko.SSHClient),
  shell (channel), sid (connected socket id or None) and cleanup_timer
  (a gevent greenlet or None).  Socket.IO rooms route output: the pump
  `read_from_ssh` emits to room=token, and a socket that called join_room
  stays in the room until it leaves or disconnects.

  We embed this state machine shallowly: Python dicts become insertion
  ordered association lists, the room membership becomes a list of
  (sid, token) pairs, and live (not yet fired, not killed) reaper
  greenlets become a list of tasks with remaining sleep seconds.  Each
  Socket.IO handler becomes a total Lean function from state to state
  plus a list of emitted events.
-/

def SESSION_TIMEOUT : Nat := 600

def READ_CHUNK : Nat := 1024

def POLL_INTERVAL_MS : Nat := 10

/-- Model of the paramiko channel (`shell`) together with the client.
`pending` is the data the remote side has produced and not yet been
read by `recv`; `inbuf` collects data pushed with `send`. -/
structure Shell where
  pending : List Char
  inbuf : List String
  active : Bool
  exited : Bool
  closed : Bool
deriving DecidableEq, Repr

/-- One entry of the `ssh_sessions` dict.  `cleanup_timer` holds the id of
the reaper greenlet stored in the entry, or none.  `clientOpen` tracks
whether `client.close()` has been called. -/
structure SSHSession where
  sid : Option Nat
  cleanup_timer : Option Nat
  shell : Shell
  clientOpen : Bool
deriving DecidableEq, Repr

/-- A live `cleanup_session` greenlet: spawned by `disconnect_user`,
sleeping for `remaining` more seconds before its body runs.  Killing the
greenlet removes it from the live list. -/
structure ReaperTask where
  id : Nat
  token : String
  remaining : Nat
deriving DecidableEq, Repr

/-- Global server state: the `ssh_sessions` dict (insertion ordered, as a
Python dict is), the Socket.IO room membership pairs (sid, room name),
the live reaper greenlets, and a counter for fresh greenlet ids. -/
structure SrvState where
  sessions : List (String × SSHSession)
  rooms : List (Nat × String)
  tasks : List ReaperTask
  nextTask : Nat
deriving DecidableEq, Repr

/-- Events emitted by the handlers.  `loginOk`/`loginErr` are the
`login_status` payloads sent to the requesting sid; `respTo` is an
`emit("response", ...)` without a room (delivered to the requesting sid);
`respRoom` is `socketio.emit("response", ..., room=token)`, recorded with
the list of sids that are in the room at emit time. -/
inductive Emit where
  | loginOk (dst : Nat) (token : String)
  | loginErr (dst : Nat) (msg : String)
  | respTo (dst : Nat) (data : String)
  | respRoom (tos : List Nat) (data : String)
deriving DecidableEq, Repr

/-- Dict lookup: first entry with the key (keys are unique in a Python
dict, and all writes below go through `setTok`). -/
def lookupTok : List (String × SSHSession) → String → Option SSHSession
  | [], _ => none
  | (k, v) :: rest, t => if k = t then some v else lookupTok rest t

/-- Python dict write `d[k] = v`: update in place if the key is present
(position kept), append at the end otherwise. -/
def setTok : List (String × SSHSession) → String → SSHSession → List (String × SSHSession)
  | [], t, v => [(t, v)]
  | (k, w) :: rest, t, v => if k = t then (t, v) :: rest else (k, w) :: setTok rest t v

/-- Python dict delete `del d[k]`. -/
def eraseTok : List (String × SSHSession) → String → List (String × SSHSession)
  | [], _ => []
  | (k, w) :: rest, t => if k = t then eraseTok rest t else (k, w) :: eraseTok rest t

/-- The loop of `disconnect_user`: iterate the dict in insertion order and
stop at the first session whose sid equals the disconnecting sid. -/
def findBySid : List (String × SSHSession) → Nat → Option (String × SSHSession)
  | [], _ => none
  | (k, v) :: rest, sid => if v.sid = some sid then some (k, v) else findBySid rest sid

/-- join_room: a sid enters the room named by the token (idempotent). -/
def joinRoom (rooms : List (Nat × String)) (sid : Nat) (t : String) : List (Nat × String) :=
  if (sid, t) ∈ rooms then rooms else rooms ++ [(sid, t)]

/-- The sids currently inside room `t`: the targets of an emit to that room. -/
def roomMembers (rooms : List (Nat × String)) (t : String) : List Nat :=
  (rooms.filter (fun p => p.2 = t)).map (fun p => p.1)

/-- The close block shared by `cleanup_session` and `handle_logout`:
`shell.close(); client.close()` inside try/except Exception: pass, so it
is total and never raises, also on an already closed channel. -/
def closeSess (s : SSHSession) : SSHSession :=
  { s with shell := { s.shell with closed := true }, clientOpen := false }

/-- shell.send inside try/except: appends to the channel input, and the
exception raised on a closed channel is swallowed. -/
def shellSend (sh : Shell) (d : String) : Shell :=
  if sh.closed then sh else { sh with inbuf := sh.inbuf ++ [d] }

/-- Body of `cleanup_session(token)` after its `gevent.sleep(SESSION_TIMEOUT)`
returns (the part that runs when the greenlet fires): if the token is
still in `ssh_sessions` and its sid is None, close shell and client and
delete the entry; otherwise do nothing. -/
def cleanup_session_fire (st : SrvState) (t : String) : SrvState :=
  match lookupTok st.sessions t with
  | none => st
  | some s =>
    if s.sid = none then
      { st with sessions := eraseTok (setTok st.sessions t (closeSess s)) t }
    else st

/-- One second of wall clock on the live reaper greenlets: each sleeping
task gets one second closer to firing; tasks whose sleep ends are removed
from the live list and their tokens collected (they run their bodies). -/
def tickTasks : List ReaperTask → List ReaperTask × List String
  | [] => ([], [])
  | task :: rest =>
    let p := tickTasks rest
    if task.remaining ≤ 1 then (p.1, task.token :: p.2)
    else ({ task with remaining := task.remaining - 1 } :: p.1, p.2)

/-- One second of wall clock on the whole server: advance the reaper
sleeps and run the body of every greenlet whose sleep ended. -/
def tick (st : SrvState) : SrvState :=
  let p := tickTasks st.tasks
  List.foldl cleanup_session_fire { st with tasks := p.1 } p.2

/-- Handler for the `ssh_login` Socket.IO event.  The paramiko connect
and invoke_shell calls are abstracted by `res`: on success a fresh shell,
on failure the exception message.  `freshTok` stands for str(uuid.uuid4()).
On success a new entry is stored with the caller as sid and no timer, the
caller joins the room, and a success reply with the token is emitted; on
failure only an error reply is emitted and the state is untouched. -/
def handle_ssh_login (st : SrvState) (sid : Nat) (freshTok : String)
    (res : Except String Shell) : SrvState × List Emit :=
  match res with
  | .error msg => (st, [Emit.loginErr sid msg])
  | .ok sh =>
    let s : SSHSession := { sid := some sid, cleanup_timer := none, shell := sh, clientOpen := true }
    ({ st with
        sessions := setTok st.sessions freshTok s,
        rooms := joinRoom st.rooms sid freshTok },
     [Emit.loginOk sid freshTok])

/-- Handler for the `ssh_resume` Socket.IO event.  `data.get("token")` is
the optional token.  If present in the dict: kill the cleanup timer if
the entry holds one, set the sid to the caller, join the room, reply
success with the token, and if the shell is not active additionally emit
the synthetic "Session closed by server." response to the caller.  If
absent (including a missing token field): reply the structured error. -/
def handle_ssh_resume (st : SrvState) (sid : Nat) (tok : Option String) :
    SrvState × List Emit :=
  match tok with
  | none => (st, [Emit.loginErr sid "Session expired or invalid"])
  | some t =>
    match lookupTok st.sessions t with
    | none => (st, [Emit.loginErr sid "Session expired or invalid"])
    | some s =>
      let tasks :=
        match s.cleanup_timer with
        | some tid => st.tasks.filter (fun task => task.id ≠ tid)
        | none => st.tasks
      let s2 := { s with cleanup_timer := none, sid := some sid }
      let emits :=
        if s.shell.active then [Emit.loginOk sid t]
        else [Emit.loginOk sid t, Emit.respTo sid "\r\nSession closed by server.\r\n"]
      ({ st with
          sessions := setTok st.sessions t s2,
          rooms := joinRoom st.rooms sid t,
          tasks := tasks },
       emits)

/-- Handler for the `input` Socket.IO event: if the token is in the dict,
send the data to the shell (exceptions swallowed and logged); otherwise
do nothing.  Never raises, emits nothing. -/
def handle_input (st : SrvState) (tok : Option String) (d : String) :
    SrvState × List Emit :=
  match tok with
  | none => (st, [])
  | some t =>
    match lookupTok st.sessions t with
    | none => (st, [])
    | some s =>
      ({ st with sessions := setTok st.sessions t { s with shell := shellSend s.shell d } }, [])

/-- Handler for the `disconnect` Socket.IO event: find the FIRST session
(dict iteration order) whose sid is the disconnecting sid; if found, set
its sid to None, leave the room, spawn a `cleanup_session` greenlet (full
SESSION_TIMEOUT sleep) and store it in the entry.  Socket.IO also removes
the disconnected sid from every room it was in. -/
def disconnect_user (st : SrvState) (sid : Nat) : SrvState × List Emit :=
  match findBySid st.sessions sid with
  | none => ({ st with rooms := st.rooms.filter (fun p => p.1 ≠ sid) }, [])
  | some (t, s) =>
    let s2 := { s with sid := none, cleanup_timer := some st.nextTask }
    ({ st with
        sessions := setTok st.sessions t s2,
        rooms := st.rooms.filter (fun p => p.1 ≠ sid),
        tasks := st.tasks ++ [⟨st.nextTask, t, SESSION_TIMEOUT⟩],
        nextTask := st.nextTask + 1 },
     [])

/-- Handler for the `ssh_logout` Socket.IO event: if the token is in the
dict, close shell and client (exceptions swallowed) and delete the entry;
otherwise do nothing.  The cleanup timer greenlet, if one is live, is NOT
killed here. -/
def handle_logout (st : SrvState) (tok : Option String) : SrvState × List Emit :=
  match tok with
  | none => (st, [])
  | some t =>
    match lookupTok st.sessions t with
    | none => (st, [])
    | some s =>
      ({ st with sessions := eraseTok (setTok st.sessions t (closeSess s)) t }, [])

/-- recv_ready: data is available on the channel. -/
def recvReady (sh : Shell) : Bool :=
  !sh.closed && !sh.pending.isEmpty

/-- Result of one iteration of the `read_from_ssh` polling loop. -/
structure PumpOut where
  shell : Shell
  emitted : Option (List Nat × String)
  brk : Bool
  slept : Bool
deriving DecidableEq, Repr

/-- One iteration of the `read_from_ssh` loop for the session of token
`t`: if recv_ready, read at most READ_CHUNK bytes, decode and emit the
chunk to room `t` (delivered to the sids in that room right now); then if
exit_status_ready, break out of the loop; otherwise sleep 0.01 s
(POLL_INTERVAL_MS milliseconds) and poll again. -/
def read_from_ssh_iter (rooms : List (Nat × String)) (t : String) (sh : Shell) : PumpOut :=
  let sh1 := if recvReady sh then { sh with pending := sh.pending.drop READ_CHUNK } else sh
  let em :=
    if recvReady sh then some (roomMembers rooms t, String.mk (sh.pending.take READ_CHUNK))
    else none
  if sh1.exited then ⟨sh1, em, true, false⟩
  else ⟨sh1, em, false, true⟩

/-
  Basic lemmas about the dict and room operations.
-/

theorem lookup_setTok_self (l : List (String × SSHSession)) (t : String) (v : SSHSession) :
    lookupTok (setTok l t v) t = some v := by
  induction l with
  | nil => simp [setTok, lookupTok]
  | cons p rest ih =>
    obtain ⟨k, w⟩ := p
    by_cases hk : k = t
    · subst hk
      simp [setTok, lookupTok]
    · simp [setTok, lookupTok, hk, ih]

theorem lookup_setTok_ne (l : List (String × SSHSession)) (t u : String) (v : SSHSession)
    (h : u ≠ t) : lookupTok (setTok l t v) u = lookupTok l u := by
  induction l with
  | nil => simp [setTok, lookupTok, Ne.symm h]
  | cons p rest ih =>
    obtain ⟨k, w⟩ := p
    by_cases hk : k = t
    · subst hk
      simp [setTok, lookupTok, Ne.symm h]
    · simp [setTok, lookupTok, hk, ih]

theorem lookup_eraseTok_self (l : List (String × SSHSession)) (t : String) :
    lookupTok (eraseTok l t) t = none := by
  induction l with
  | nil => simp [eraseTok, lookupTok]
  | cons p rest ih =>
    obtain ⟨k, w⟩ := p
    by_cases hk : k = t
    · subst hk
      simpa [eraseTok, lookupTok] using ih
    · simpa [eraseTok, lookupTok, hk] using ih

theorem lookup_eraseTok_ne (l : List (String × SSHSession)) (t u : String)
    (h : u ≠ t) : lookupTok (eraseTok l t) u = lookupTok l u := by
  induction l with
  | nil => simp [eraseTok, lookupTok]
  | cons p rest ih =>
    obtain ⟨k, w⟩ := p
    by_cases hk : k = t
    · subst hk
      simpa [eraseTok, lookupTok, Ne.symm h] using ih
    · simp [eraseTok, lookupTok, hk, ih]

theorem keys_setTok (l : List (String × SSHSession)) (t : String) (s v : SSHSession)
    (h : lookupTok l t = some s) : (setTok l t v).map Prod.fst = l.map Prod.fst := by
  induction l with
  | nil => simp [lookupTok] at h
  | cons p rest ih =>
    obtain ⟨k, w⟩ := p
    by_cases hk : k = t
    · subst hk
      simp [setTok]
    · rw [lookupTok, if_neg hk] at h
      simp [setTok, hk, ih h]

theorem mem_joinRoom_self (rooms : List (Nat × String)) (sid : Nat) (t : String) :
    (sid, t) ∈ joinRoom rooms sid t := by
  unfold joinRoom
  split
  · assumption
  · simp

theorem mem_joinRoom_of_mem (rooms : List (Nat × String)) (sid x : Nat) (t u : String)
    (h : (x, u) ∈ rooms) : (x, u) ∈ joinRoom rooms sid t := by
  unfold joinRoom
  split
  · exact h
  · exact List.mem_append_left _ h

theorem mem_of_mem_roomMembers (rooms : List (Nat × String)) (t : String) (x : Nat)
    (h : x ∈ roomMembers rooms t) : (x, t) ∈ rooms := by
  unfold roomMembers at h
  obtain ⟨p, hp, he⟩ := List.mem_map.mp h
  obtain ⟨hmem, hsnd⟩ := List.mem_filter.mp hp
  have : p = (x, t) := by
    obtain ⟨a, b⟩ := p
    simp only at he hsnd
    simp [he, decide_eq_true_eq.mp hsnd]
  exact this ▸ hmem

/-
  Preservation lemmas: a session that has a subscriber attached is never
  removed by a firing reaper, hence survives any amount of wall clock.
-/

theorem fire_preserves_attached (st : SrvState) (u t : String) (s : SSHSession) (x : Nat)
    (h : lookupTok st.sessions t = some s) (hx : s.sid = some x) :
    lookupTok (cleanup_session_fire st u).sessions t = some s := by
  unfold cleanup_session_fire
  cases hu : lookupTok st.sessions u with
  | none => exact h
  | some su =>
    show lookupTok
        (if su.sid = none then
          { st with sessions := eraseTok (setTok st.sessions u (closeSess su)) u }
        else st).sessions t = some s
    by_cases hsid : su.sid = none
    · by_cases hut : u = t
      · subst hut
        rw [h] at hu
        injection hu with e
        subst e
        rw [hsid] at hx
        cases hx
      · have htu : t ≠ u := fun e => hut e.symm
        rw [if_pos hsid]
        show lookupTok (eraseTok (setTok st.sessions u (closeSess su)) u) t = some s
        rw [lookup_eraseTok_ne _ _ _ htu, lookup_setTok_ne _ _ _ _ htu]
        exact h
    · rw [if_neg hsid]
      exact h

theorem foldl_fire_preserves_attached (l : List String) (st : SrvState) (t : String)
    (s : SSHSession) (x : Nat)
    (h : lookupTok st.sessions t = some s) (hx : s.sid = some x) :
    lookupTok (List.foldl cleanup_session_fire st l).sessions t = some s := by
  induction l generalizing st with
  | nil => exact h
  | cons u rest ih =>
    exact ih _ (fire_preserves_attached st u t s x h hx)

theorem tick_preserves_attached (st : SrvState) (t : String) (s : SSHSession) (x : Nat)
    (h : lookupTok st.sessions t = some s) (hx : s.sid = some x) :
    lookupTok (tick st).sessions t = some s := by
  unfold tick
  exact foldl_fire_preserves_attached _ _ _ _ x h hx

theorem iterate_tick_preserves_attached (n : Nat) (st : SrvState) (t : String)
    (s : SSHSession) (x : Nat)
    (h : lookupTok st.sessions t = some s) (hx : s.sid = some x) :
    lookupTok ((tick^[n]) st).sessions t = some s := by
  induction n generalizing st with
  | zero => exact h
  | succ n ih =>
    rw [Function.iterate_succ_apply]
    exact ih _ (tick_preserves_attached st t s x h hx)

/-
  The disconnect handler stops at the first matching session.
-/

theorem findBySid_split (l : List (String × SSHSession)) (sid : Nat) (t : String)
    (s : SSHSession) (h : findBySid l sid = some (t, s)) :
    ∃ l1 l2, l = l1 ++ (t, s) :: l2 ∧ ∀ p ∈ l1, p.2.sid ≠ some sid := by
  induction l with
  | nil => cases h
  | cons p rest ih =>
    obtain ⟨k, v⟩ := p
    by_cases hv : v.sid = some sid
    · rw [findBySid, if_pos hv] at h
      injection h with e
      obtain ⟨e1, e2⟩ := Prod.mk.injEq .. ▸ e
      refine ⟨[], rest, ?_, by simp⟩
      simp_all
    · rw [findBySid, if_neg hv] at h
      obtain ⟨l1, l2, he, hall⟩ := ih h
      refine ⟨(k, v) :: l1, l2, by rw [he, List.cons_append], ?_⟩
      intro q hq
      rcases List.mem_cons.mp hq with hq | hq
      · rw [hq]
        exact hv
      · exact hall q hq

theorem lookup_append_skip (l1 l2 : List (String × SSHSession)) (t : String) (s : SSHSession)
    (hl1 : ∀ p ∈ l1, p.1 ≠ t) : lookupTok (l1 ++ (t, s) :: l2) t = some s := by
  induction l1 with
  | nil => simp [lookupTok]
  | cons p rest ih =>
    obtain ⟨k, w⟩ := p
    rw [List.cons_append, lookupTok, if_neg (hl1 (k, w) (List.mem_cons_self _ _))]
    exact ih fun q hq => hl1 q (List.mem_cons_of_mem _ hq)

theorem findBySid_lookup (l : List (String × SSHSession)) (sid : Nat) (t : String)
    (s : SSHSession) (hnd : (l.map Prod.fst).Nodup) (h : findBySid l sid = some (t, s)) :
    lookupTok l t = some s := by
  obtain ⟨l1, l2, he, _⟩ := findBySid_split l sid t s h
  subst he
  refine lookup_append_skip l1 l2 t s ?_
  intro p hp he
  rw [List.map_append, List.map_cons] at hnd
  have hdisj := (List.nodup_append.mp hnd).2.2
  exact hdisj (List.mem_map.mpr ⟨p, hp, he⟩) (List.mem_cons_self _ _)

theorem read_iter_emitted (rooms : List (Nat × String)) (t : String) (sh : Shell) :
    (read_from_ssh_iter rooms t sh).emitted =
      if recvReady sh then
        some (roomMembers rooms t, String.mk (sh.pending.take READ_CHUNK))
      else none := by
  unfold read_from_ssh_iter
  by_cases hr : recvReady sh <;> by_cases he : sh.exited = true <;>
    simp_all

theorem read_iter_shell (rooms : List (Nat × String)) (t : String) (sh : Shell) :
    (read_from_ssh_iter rooms t sh).shell =
      if recvReady sh then { sh with pending := sh.pending.drop READ_CHUNK } else sh := by
  unfold read_from_ssh_iter
  by_cases hr : recvReady sh <;> by_cases he : sh.exited = true <;>
    simp_all

theorem read_iter_brk (rooms : List (Nat × String)) (t : String) (sh : Shell) :
    (read_from_ssh_iter rooms t sh).brk = sh.exited := by
  unfold read_from_ssh_iter
  by_cases hr : recvReady sh <;> by_cases he : sh.exited = true <;>
    simp_all

theorem read_iter_slept (rooms : List (Nat × String)) (t : String) (sh : Shell) :
    (read_from_ssh_iter rooms t sh).slept = !sh.exited := by
  unfold read_from_ssh_iter
  by_cases hr : recvReady sh <;> by_cases he : sh.exited = true <;>
    simp_all

/-
  Concrete fixtures used by the witnesses and counterexamples: a login
  from sid 1, followed by various event sequences.
-/

def shTermW : Shell := { pending := ['h', 'i'], inbuf := [], active := true, exited := false, closed := false }

def st0W : SrvState := { sessions := [], rooms := [], tasks := [], nextTask := 0 }

def stLoginW : SrvState := (handle_ssh_login st0W 1 "tok" (Except.ok shTermW)).1

def stDiscW : SrvState := (disconnect_user stLoginW 1).1

def stLogoutW : SrvState := (handle_logout stDiscW (some "tok")).1

def stResumedW : SrvState := (handle_ssh_resume stLoginW 2 (some "tok")).1

def sessDiscW : SSHSession :=
  { sid := none, cleanup_timer := some 0, shell := shTermW, clientOpen := true }

theorem resume_state_eq (st : SrvState) (sid : Nat) (t : String) (s : SSHSession)
    (hs : lookupTok st.sessions t = some s) :
    (handle_ssh_resume st sid (some t)).1 =
      { st with
          sessions := setTok st.sessions t { s with cleanup_timer := none, sid := some sid },
          rooms := joinRoom st.rooms sid t,
          tasks :=
            match s.cleanup_timer with
            | some tid => st.tasks.filter (fun task => task.id ≠ tid)
            | none => st.tasks } := by
  simp only [handle_ssh_resume]
  rw [hs]

theorem resume_emits_eq (st : SrvState) (sid : Nat) (t : String) (s : SSHSession)
    (hs : lookupTok st.sessions t = some s) :
    (handle_ssh_resume st sid (some t)).2 =
      if s.shell.active then [Emit.loginOk sid t]
      else [Emit.loginOk sid t, Emit.respTo sid "\r\nSession closed by server.\r\n"] := by
  simp only [handle_ssh_resume]
  rw [hs]

/-- C1: resuming a session while its grace-period reaper is pending kills
that reaper (its greenlet is no longer live afterwards), and the resumed
session survives any further amount of wall clock (in particular a full
further SESSION_TIMEOUT window) as long as the subscriber stays attached;
moreover a firing reaper destroys the session only if its sid is still
None at fire time, and is a no-op when a subscriber was reattached. -/
theorem resume_cancels_reaper_session_survives (st : SrvState) (sid : Nat) (t : String)
    (s : SSHSession) (hs : lookupTok st.sessions t = some s) :
    (∀ tid, s.cleanup_timer = some tid →
      ∀ task ∈ ((handle_ssh_resume st sid (some t)).1).tasks, task.id ≠ tid)
    ∧ (∀ n, lookupTok ((tick^[n]) ((handle_ssh_resume st sid (some t)).1)).sessions t
        = some { s with cleanup_timer := none, sid := some sid })
    ∧ (∀ st2 s2, lookupTok st2.sessions t = some s2 → s2.sid ≠ none →
        cleanup_session_fire st2 t = st2)
    ∧ (∀ st2 s2, lookupTok st2.sessions t = some s2 → s2.sid = none →
        lookupTok (cleanup_session_fire st2 t).sessions t = none) := by
  refine ⟨?_, ?_, ?_, ?_⟩
  · intro tid htid task hmem
    rw [resume_state_eq st sid t s hs] at hmem
    simp only [htid] at hmem
    have hdec := (List.mem_filter.mp hmem).2
    simpa using hdec
  · intro n
    rw [resume_state_eq st sid t s hs]
    refine iterate_tick_preserves_attached n _ t _ sid ?_ rfl
    exact lookup_setTok_self st.sessions t _
  · intro st2 s2 h2 hne
    unfold cleanup_session_fire
    rw [h2]
    show (if s2.sid = none then
        { st2 with sessions := eraseTok (setTok st2.sessions t (closeSess s2)) t }
      else st2) = st2
    rw [if_neg hne]
  · intro st2 s2 h2 hnone
    unfold cleanup_session_fire
    rw [h2]
    show lookupTok
        (if s2.sid = none then
          { st2 with sessions := eraseTok (setTok st2.sessions t (closeSess s2)) t }
        else st2).sessions t = none
    rw [if_pos hnone]
    exact lookup_eraseTok_self _ t

/-- Witness for C1 at the concrete disconnected fixture: the session of
token "tok" resumed by sid 2 is still registered, attached to sid 2,
after a further full SESSION_TIMEOUT of wall clock. -/
theorem resume_cancels_reaper_session_survives_witness :
    lookupTok stDiscW.sessions "tok" = some sessDiscW
    ∧ lookupTok ((tick^[SESSION_TIMEOUT]) ((handle_ssh_resume stDiscW 2 (some "tok")).1)).sessions "tok"
        = some { sessDiscW with cleanup_timer := none, sid := some 2 } :=
  ⟨by decide,
   (resume_cancels_reaper_session_survives stDiscW 2 "tok" sessDiscW (by decide)).2.1
     SESSION_TIMEOUT⟩

theorem logout_state_eq (st : SrvState) (t : String) (s : SSHSession)
    (hs : lookupTok st.sessions t = some s) :
    handle_logout st (some t) =
      ({ st with sessions := eraseTok (setTok st.sessions t (closeSess s)) t }, []) := by
  simp only [handle_logout]
  rw [hs]

/-- C2 counterexample: login as sid 1 (token "tok"), disconnect (reaper
greenlet id 0 spawned), then logout.  The claim says destroy cancels any
pending reaper, but after the logout the registry entry is gone while the
reaper greenlet for "tok" is still live. -/
theorem logout_does_not_cancel_reaper_cex :
    lookupTok stLogoutW.sessions "tok" = none
    ∧ stLogoutW.tasks = [{ id := 0, token := "tok", remaining := SESSION_TIMEOUT }] := by
  constructor
  · decide
  · decide

/-- C2 amended: for a token in the registry, logout closes the channel and
the connector (swallowing close errors), removes the registry entry and
leaves other entries alone, replies nothing — but it leaves the live
reaper greenlet list untouched; the un-cancelled reaper is a no-op when
it later fires, because the token is no longer in the registry. -/
theorem logout_destroys_entry (st : SrvState) (t : String) (s : SSHSession)
    (hs : lookupTok st.sessions t = some s) :
    lookupTok (handle_logout st (some t)).1.sessions t = none
    ∧ (∀ u, u ≠ t → lookupTok (handle_logout st (some t)).1.sessions u = lookupTok st.sessions u)
    ∧ (handle_logout st (some t)).1.tasks = st.tasks
    ∧ (handle_logout st (some t)).2 = []
    ∧ (closeSess s).shell.closed = true
    ∧ (closeSess s).clientOpen = false
    ∧ (∀ st2, lookupTok st2.sessions t = none → cleanup_session_fire st2 t = st2) := by
  refine ⟨?_, ?_, ?_, ?_, rfl, rfl, ?_⟩
  · rw [logout_state_eq st t s hs]
    exact lookup_eraseTok_self _ t
  · intro u hu
    rw [logout_state_eq st t s hs]
    show lookupTok (eraseTok (setTok st.sessions t (closeSess s)) t) u = lookupTok st.sessions u
    rw [lookup_eraseTok_ne _ _ _ hu, lookup_setTok_ne _ _ _ _ hu]
  · rw [logout_state_eq st t s hs]
  · rw [logout_state_eq st t s hs]
  · intro st2 h2
    unfold cleanup_session_fire
    rw [h2]

/-- Witness for the amended C2 at the disconnected fixture: logging out
"tok" removes it from the registry. -/
theorem logout_destroys_entry_witness :
    lookupTok stDiscW.sessions "tok" = some sessDiscW
    ∧ lookupTok (handle_logout stDiscW (some "tok")).1.sessions "tok" = none :=
  ⟨by decide, (logout_destroys_entry stDiscW "tok" sessDiscW (by decide)).1⟩

/-- C9: logout on an absent (already destroyed or never issued) token, or
with no token field at all, is a structural no-op: no reply, no exception
(the handler is a total function), state exactly preserved. -/
theorem logout_idempotent_on_absent (st : SrvState) (t : String)
    (h : lookupTok st.sessions t = none) :
    handle_logout st (some t) = (st, []) ∧ handle_logout st none = (st, []) := by
  constructor
  · simp only [handle_logout]
    rw [h]
  · rfl

/-- Witness for C9: logging out "tok" a second time, after the fixture
already destroyed it, leaves the state untouched. -/
theorem logout_idempotent_on_absent_witness :
    lookupTok stLogoutW.sessions "tok" = none
    ∧ handle_logout stLogoutW (some "tok") = (stLogoutW, []) :=
  ⟨by decide, (logout_idempotent_on_absent stLogoutW "tok" (by decide)).1⟩

/-- C4: for a token absent from the registry (or a missing token field),
resume replies exactly the structured error "Session expired or invalid"
and input is a pure no-op; both handlers are total functions, so neither
ever raises, and the state (registry, rooms, reapers, channels) is
unchanged. -/
theorem absent_token_resume_input_never_raise (st : SrvState) (sid : Nat) (t d d2 : String)
    (h : lookupTok st.sessions t = none) :
    handle_ssh_resume st sid (some t) = (st, [Emit.loginErr sid "Session expired or invalid"])
    ∧ handle_input st (some t) d = (st, [])
    ∧ handle_ssh_resume st sid none = (st, [Emit.loginErr sid "Session expired or invalid"])
    ∧ handle_input st none d2 = (st, []) := by
  refine ⟨?_, ?_, rfl, rfl⟩
  · simp only [handle_ssh_resume]
    rw [h]
  · simp only [handle_input]
    rw [h]

/-- Witness for C4 on the empty registry with a never-issued token. -/
theorem absent_token_resume_input_never_raise_witness :
    lookupTok st0W.sessions "ghost" = none
    ∧ handle_ssh_resume st0W 7 (some "ghost")
        = (st0W, [Emit.loginErr 7 "Session expired or invalid"]) :=
  ⟨by decide, (absent_token_resume_input_never_raise st0W 7 "ghost" "ls" "pwd" (by decide)).1⟩

/-- C7: a failed login (the connect raised, message msg) replies exactly
one structured error event carrying the failure message, creates no
session and touches nothing in the state; the handler is a total function
on every state, so the failure cannot terminate the serving process. -/
theorem login_failure_replies_error_no_session (st : SrvState) (sid : Nat) (ft msg : String) :
    handle_ssh_login st sid ft (Except.error msg) = (st, [Emit.loginErr sid msg]) := rfl

/-- C8: resuming a token that is in the registry attaches the caller as
subscriber (sid slot set, timer cleared, caller joins the room) and
replies success together with the token; when the channel reports not
active, the success reply is immediately followed by a synthetic response
event to the caller containing "Session closed by server.". -/
theorem resume_attaches_subscriber_and_notifies (st : SrvState) (sid : Nat) (t : String)
    (s : SSHSession) (hs : lookupTok st.sessions t = some s) :
    lookupTok ((handle_ssh_resume st sid (some t)).1).sessions t
        = some { s with cleanup_timer := none, sid := some sid }
    ∧ (sid, t) ∈ ((handle_ssh_resume st sid (some t)).1).rooms
    ∧ (s.shell.active = true → (handle_ssh_resume st sid (some t)).2 = [Emit.loginOk sid t])
    ∧ (s.shell.active = false → (handle_ssh_resume st sid (some t)).2
        = [Emit.loginOk sid t, Emit.respTo sid "\r\nSession closed by server.\r\n"]) := by
  refine ⟨?_, ?_, ?_, ?_⟩
  · rw [resume_state_eq st sid t s hs]
    exact lookup_setTok_self st.sessions t _
  · rw [resume_state_eq st sid t s hs]
    exact mem_joinRoom_self st.rooms sid t
  · intro ha
    rw [resume_emits_eq st sid t s hs, if_pos ha]
  · intro ha
    rw [resume_emits_eq st sid t s hs]
    simp [ha]

/-- Witness for C8 at a fixture whose channel is not active: the reply is
the success event followed by the synthetic close message. -/
def shInactiveW : Shell :=
  { pending := [], inbuf := [], active := false, exited := false, closed := false }

def sessInactiveW : SSHSession :=
  { sid := none, cleanup_timer := none, shell := shInactiveW, clientOpen := true }

def stInactiveW : SrvState :=
  { sessions := [("tok", sessInactiveW)], rooms := [], tasks := [], nextTask := 0 }

theorem resume_attaches_subscriber_and_notifies_witness :
    lookupTok stInactiveW.sessions "tok" = some sessInactiveW
    ∧ (handle_ssh_resume stInactiveW 3 (some "tok")).2
        = [Emit.loginOk 3 "tok", Emit.respTo 3 "\r\nSession closed by server.\r\n"] :=
  ⟨by decide,
   (resume_attaches_subscriber_and_notifies stInactiveW 3 "tok" sessInactiveW (by decide)).2.2.2
     rfl⟩

/-- C6: one iteration of the output pump reads at most READ_CHUNK = 1024
bytes when data is ready, publishes them to the sids in the room of the
token, drops them from the channel, breaks the loop exactly when the
channel reports exit status ready, and otherwise yields for
POLL_INTERVAL_MS = 10 milliseconds before re-polling. -/
theorem output_pump_loop_shape (rooms : List (Nat × String)) (t : String) (sh : Shell) :
    (recvReady sh = true →
      (read_from_ssh_iter rooms t sh).emitted
          = some (roomMembers rooms t, String.mk (sh.pending.take READ_CHUNK))
      ∧ (read_from_ssh_iter rooms t sh).shell.pending = sh.pending.drop READ_CHUNK)
    ∧ (recvReady sh = false →
      (read_from_ssh_iter rooms t sh).emitted = none
      ∧ (read_from_ssh_iter rooms t sh).shell = sh)
    ∧ (read_from_ssh_iter rooms t sh).brk = sh.exited
    ∧ (read_from_ssh_iter rooms t sh).slept = !sh.exited
    ∧ (∀ ds d, (read_from_ssh_iter rooms t sh).emitted = some (ds, d) →
        d.length ≤ READ_CHUNK)
    ∧ READ_CHUNK = 1024 ∧ POLL_INTERVAL_MS = 10 := by
  refine ⟨?_, ?_, read_iter_brk rooms t sh, read_iter_slept rooms t sh, ?_, rfl, rfl⟩
  · intro hr
    rw [read_iter_emitted, read_iter_shell, if_pos hr, if_pos hr]
    exact ⟨rfl, rfl⟩
  · intro hr
    rw [read_iter_emitted, read_iter_shell]
    simp [hr]
  · intro ds d hd
    rw [read_iter_emitted] at hd
    by_cases hr : recvReady sh = true
    · rw [if_pos hr] at hd
      injection hd with e
      have hde : d = String.mk (sh.pending.take READ_CHUNK) := by
        have := congrArg Prod.snd e
        simpa using this.symm
      rw [hde]
      show (sh.pending.take READ_CHUNK).length ≤ READ_CHUNK
      exact List.length_take_le READ_CHUNK sh.pending
    · rw [if_neg hr] at hd
      cases hd

/-- Witness for C6 at the two-byte fixture channel. -/
theorem output_pump_loop_shape_witness :
    recvReady shTermW = true
    ∧ (read_from_ssh_iter [(1, "tok")] "tok" shTermW).emitted
        = some (roomMembers [(1, "tok")] "tok", String.mk (shTermW.pending.take READ_CHUNK)) :=
  ⟨by decide, ((output_pump_loop_shape [(1, "tok")] "tok" shTermW).1 (by decide)).1⟩

/-- C5: channel output is delivered exactly to the sids that are in the
room of the token at the moment the pump emits it, so a subscriber
attached later never sees it (the state holds no buffer of past output);
and the resume handler itself never emits a room-routed output event nor
any response other than the fixed synthetic close message, so nothing is
delivered retroactively on resume. -/
theorem unsubscribed_output_never_buffered :
    (∀ rooms t sh x ds d, (read_from_ssh_iter rooms t sh).emitted = some (ds, d) →
        x ∈ ds → (x, t) ∈ rooms)
    ∧ (∀ st sid tok e, e ∈ (handle_ssh_resume st sid tok).2 →
        (∀ ds d, e ≠ Emit.respRoom ds d)
        ∧ (∀ x d, e = Emit.respTo x d → d = "\r\nSession closed by server.\r\n")) := by
  constructor
  · intro rooms t sh x ds d hd hx
    rw [read_iter_emitted] at hd
    by_cases hr : recvReady sh = true
    · rw [if_pos hr] at hd
      injection hd with e
      have hds : ds = roomMembers rooms t := by
        have := congrArg Prod.fst e
        simpa using this.symm
      rw [hds] at hx
      exact mem_of_mem_roomMembers rooms t x hx
    · rw [if_neg hr] at hd
      cases hd
  · intro st sid tok e he
    match tok with
    | none =>
      simp only [handle_ssh_resume] at he
      rw [List.mem_singleton] at he
      subst he
      exact ⟨fun ds d h => Emit.noConfusion h, fun x d h => Emit.noConfusion h⟩
    | some t =>
      cases hl : lookupTok st.sessions t with
      | none =>
        simp only [handle_ssh_resume, hl] at he
        rw [List.mem_singleton] at he
        subst he
        exact ⟨fun ds d h => Emit.noConfusion h, fun x d h => Emit.noConfusion h⟩
      | some s =>
        rw [resume_emits_eq st sid t s hl] at he
        by_cases ha : s.shell.active = true
        · rw [if_pos ha] at he
          rw [List.mem_singleton] at he
          subst he
          exact ⟨fun ds d h => Emit.noConfusion h, fun x d h => Emit.noConfusion h⟩
        · rw [if_neg ha] at he
          rcases List.mem_cons.mp he with he | he
          · subst he
            exact ⟨fun ds d h => Emit.noConfusion h, fun x d h => Emit.noConfusion h⟩
          · rw [List.mem_singleton] at he
            subst he
            refine ⟨fun ds d h => Emit.noConfusion h, fun x d h => ?_⟩
            injection h with h1 h2
            exact h2.symm

/-- Witness for C5: the fixture emit reaches exactly the room member. -/
theorem unsubscribed_output_never_buffered_witness :
    (1, "tok") ∈ ([(1, "tok")] : List (Nat × String)) :=
  unsubscribed_output_never_buffered.1 [(1, "tok")] "tok" shTermW 1 [1] "hi"
    (by decide) (by decide)

def sessLoginW : SSHSession :=
  { sid := some 1, cleanup_timer := none, shell := shTermW, clientOpen := true }

/-- C3 counterexample: sid 1 logs in (token "tok") and stays connected; a
second connection, sid 2, resumes the same token.  The sid slot now names
sid 2, but sid 1 is still in the Socket.IO room "tok", so the next pump
emit is delivered to BOTH sids — the previous subscriber still receives
the output of the session, against the claim that the new connection
becomes the sole routing target. -/
theorem old_subscriber_still_receives_cex :
    lookupTok stResumedW.sessions "tok"
        = some { sid := some 2, cleanup_timer := none, shell := shTermW, clientOpen := true }
    ∧ stResumedW.rooms = [(1, "tok"), (2, "tok")]
    ∧ (read_from_ssh_iter stResumedW.rooms "tok" shTermW).emitted = some ([1, 2], "hi") := by
  refine ⟨by decide, by decide, by decide⟩

/-- C3 amended: at most one subscriber holds the sid slot of a token, a
resume of the same token displaces the previous sid as the recorded
subscriber and creates no second session (the set of tokens is
unchanged); however every sid already in the room of the token stays in
it, so a previous subscriber that is still connected keeps receiving the
output events of the session until it disconnects. -/
theorem resume_displaces_sid_slot (st : SrvState) (sid2 : Nat) (t : String) (s : SSHSession)
    (hs : lookupTok st.sessions t = some s) :
    lookupTok ((handle_ssh_resume st sid2 (some t)).1).sessions t
        = some { s with cleanup_timer := none, sid := some sid2 }
    ∧ ((handle_ssh_resume st sid2 (some t)).1).sessions.map Prod.fst
        = st.sessions.map Prod.fst
    ∧ (∀ x, (x, t) ∈ st.rooms →
        (x, t) ∈ ((handle_ssh_resume st sid2 (some t)).1).rooms) := by
  refine ⟨?_, ?_, ?_⟩
  · rw [resume_state_eq st sid2 t s hs]
    exact lookup_setTok_self st.sessions t _
  · rw [resume_state_eq st sid2 t s hs]
    show (setTok st.sessions t _).map Prod.fst = st.sessions.map Prod.fst
    exact keys_setTok st.sessions t s _ hs
  · intro x hx
    rw [resume_state_eq st sid2 t s hs]
    exact mem_joinRoom_of_mem st.rooms sid2 x t t hx

/-- Witness for the amended C3: after sid 2 resumes, sid 1 (still
connected from its login) is still in the room. -/
theorem resume_displaces_sid_slot_witness :
    lookupTok stLoginW.sessions "tok" = some sessLoginW
    ∧ (1, "tok") ∈ stLoginW.rooms
    ∧ (1, "tok") ∈ ((handle_ssh_resume stLoginW 2 (some "tok")).1).rooms :=
  ⟨by decide, by decide,
   (resume_displaces_sid_slot stLoginW 2 "tok" sessLoginW (by decide)).2.2 1 (by decide)⟩

/-- C10: a disconnect clears the subscriber and schedules a reaper only
for the FIRST session, in registry iteration order, whose sid is the
disconnecting connection; every further session belonging to the same sid
keeps its stale sid field unchanged and gets no reaper. -/
theorem disconnect_detaches_only_first (st : SrvState) (sid : Nat) (t0 : String)
    (s0 : SSHSession) (hnd : (st.sessions.map Prod.fst).Nodup)
    (h : findBySid st.sessions sid = some (t0, s0)) :
    lookupTok st.sessions t0 = some s0
    ∧ lookupTok ((disconnect_user st sid).1).sessions t0
        = some { s0 with sid := none, cleanup_timer := some st.nextTask }
    ∧ ((disconnect_user st sid).1).tasks
        = st.tasks ++ [{ id := st.nextTask, token := t0, remaining := SESSION_TIMEOUT }]
    ∧ (∀ u, u ≠ t0 →
        lookupTok ((disconnect_user st sid).1).sessions u = lookupTok st.sessions u)
    ∧ (∀ task ∈ ((disconnect_user st sid).1).tasks, task.token ≠ t0 → task ∈ st.tasks)
    ∧ (∃ l1 l2, st.sessions = l1 ++ (t0, s0) :: l2 ∧ ∀ p ∈ l1, p.2.sid ≠ some sid) := by
  have hstate : (disconnect_user st sid).1 =
      { st with
          sessions := setTok st.sessions t0
            { s0 with sid := none, cleanup_timer := some st.nextTask },
          rooms := st.rooms.filter (fun p => p.1 ≠ sid),
          tasks := st.tasks ++ [{ id := st.nextTask, token := t0, remaining := SESSION_TIMEOUT }],
          nextTask := st.nextTask + 1 } := by
    simp only [disconnect_user, h]
  refine ⟨findBySid_lookup st.sessions sid t0 s0 hnd h, ?_, ?_, ?_, ?_,
    findBySid_split st.sessions sid t0 s0 h⟩
  · rw [hstate]
    exact lookup_setTok_self st.sessions t0 _
  · rw [hstate]
  · intro u hu
    rw [hstate]
    show lookupTok (setTok st.sessions t0 _) u = lookupTok st.sessions u
    exact lookup_setTok_ne _ _ _ _ hu
  · intro task hmem hne
    rw [hstate] at hmem
    have hm : task ∈ st.tasks ++
        [{ id := st.nextTask, token := t0, remaining := SESSION_TIMEOUT }] := hmem
    rcases List.mem_append.mp hm with hm2 | hm2
    · exact hm2
    · rw [List.mem_singleton] at hm2
      subst hm2
      exact absurd rfl hne

/-- Witness for C10: two logins on one connection (sid 1, tokens "tokA"
then "tokB"); the disconnect of sid 1 detaches only "tokA" and leaves the
entry of "tokB" untouched, with its stale sid. -/
def stTwoW : SrvState :=
  (handle_ssh_login (handle_ssh_login st0W 1 "tokA" (Except.ok shTermW)).1 1 "tokB"
    (Except.ok shTermW)).1

theorem disconnect_detaches_only_first_witness :
    (stTwoW.sessions.map Prod.fst).Nodup
    ∧ findBySid stTwoW.sessions 1 = some ("tokA", sessLoginW)
    ∧ lookupTok ((disconnect_user stTwoW 1).1).sessions "tokB"
        = lookupTok stTwoW.sessions "tokB" :=
  ⟨by decide, by decide,
   (disconnect_detaches_only_first stTwoW 1 "tokA" sessLoginW (by decide)
      (by decide)).2.2.2.1 "tokB" (by decide)⟩
